import Mathlib

/-!
Verification of the Titanic analysis transforms of `apputil.py`.

A pandas dataframe of passenger records is modelled as a `List Passenger`,
and each analysis function of the repository becomes a Lean function over
that list, returning lists of row structures that mirror the dataframes the
Python functions return.  Numeric CSV values are modelled as rationals,
missing values (`NaN`) as `Option`, and the 0/1 `Survived` flag as `Bool`.
-/

namespace Titanic

/-- Age categories produced by `pd.cut` in `survival_demographics`, in the
category order given by `age_labels` (line 23 of `apputil.py`). -/
inductive AgeGroup
  | child
  | teen
  | adult
  | senior
deriving DecidableEq, Repr

/-- Category list of the `age_group` column, in declared order. -/
def allAgeGroups : List AgeGroup := [.child, .teen, .adult, .senior]

/-- Model of `pd.cut(df[Age], bins=[0, 12, 19, 59, inf], labels, right=True)`
(lines 22-25): half-open bins `(0,12], (12,19], (19,59], (59,inf)`.  A value
lying in no bin (age at most 0) gets no category, exactly as `pd.cut`
yields `NaN` there. -/
def ageGroup? (a : ℚ) : Option AgeGroup :=
  if a ≤ 0 then none
  else if a ≤ 12 then some .child
  else if a ≤ 19 then some .teen
  else if a ≤ 59 then some .adult
  else some .senior

/-- One row of the Titanic CSV (schema of the spec, section 6).  `Age` may be
missing, as may `Cabin` and `Embarked`; `Survived` is the 0/1 flag. -/
structure Passenger where
  passengerId : Nat
  survived : Bool
  pclass : Nat
  name : String
  sex : String
  age : Option ℚ
  sibsp : Nat
  parch : Nat
  ticket : String
  fare : ℚ
  cabin : Option String
  embarked : Option String
deriving DecidableEq, Repr

/-- Derived `age_group` attribute of a record: defined only when `Age` is
defined and falls in one of the four bins. -/
def Passenger.ageGroup (r : Passenger) : Option AgeGroup := r.age.bind ageGroup?

/-- Grouping key of a record in `groupby([Pclass, Sex, age_group])`: `none`
when the `age_group` cell is `NaN`, in which case pandas drops the record
from every group. -/
def Passenger.demoKey (r : Passenger) : Option (Nat × String × AgeGroup) :=
  r.ageGroup.map (fun g => (r.pclass, r.sex, g))

/-- Rounding used by pandas `DataFrame.round` (numpy): half to even. -/
def roundHalfEven (x : ℚ) : ℤ :=
  let f := ⌊x⌋
  if x - f < 1/2 then f
  else if 1/2 < x - f then f + 1
  else if f % 2 = 0 then f else f + 1

/-- Model of `.round(3)` on one cell. -/
def round3 (x : ℚ) : ℚ := (roundHalfEven (x * 1000) : ℚ) / 1000

/-- Model of `.round(2)` on one cell. -/
def round2 (x : ℚ) : ℚ := (roundHalfEven (x * 100) : ℚ) / 100

/-- Lexicographic code-point comparison of character lists; this is how
Python compares the strings sorted by `sorted(df[Sex].unique())`. -/
def charListLe : List Char → List Char → Bool
  | [], _ => true
  | _ :: _, [] => false
  | a :: as, b :: bs =>
    if a.toNat < b.toNat then true
    else if b.toNat < a.toNat then false
    else charListLe as bs

/-- String comparison used by Python `sorted` on strings. -/
def strLe (a b : String) : Bool := charListLe a.data b.data

/-- Model of `sorted(df[Pclass].unique())` (line 29): the distinct observed
classes, ascending. -/
def observedClasses (records : List Passenger) : List Nat :=
  ((records.map (fun r => r.pclass)).dedup).insertionSort (· ≤ ·)

/-- Model of `sorted(df[Sex].unique())` (line 30): the distinct observed sex
strings, ascending. -/
def observedSexes (records : List Passenger) : List String :=
  ((records.map (fun r => r.sex)).dedup).insertionSort (fun a b => strLe a b = true)

/-- Model of `itertools.product(all_classes, all_sexes, age_labels)`
(line 34), which is also the row order after the final sort by
`[Pclass, Sex, age_group]` (classes ascending, sexes ascending, age groups
in category order). -/
def demoKeys (records : List Passenger) : List (Nat × String × AgeGroup) :=
  (observedClasses records) ×ˢ ((observedSexes records) ×ˢ allAgeGroups)

/-- One output row of `survival_demographics`. -/
structure DemoRow where
  pclass : Nat
  sex : String
  ageGroup : AgeGroup
  nPassengers : Nat
  nSurvivors : Nat
  survivalRate : ℚ
deriving DecidableEq, Repr

/-- One aggregated group of `survival_demographics` (lines 41-56): count of
matching records, survivor sum, and mean survival rounded to 3 decimals; a
group with no passengers gets rate 0 (line 56). -/
def demoRow (records : List Passenger) (k : Nat × String × AgeGroup) : DemoRow :=
  let grp := records.filter (fun r => decide (r.demoKey = some k))
  let n := grp.length
  let s := (grp.filter (fun r => r.survived)).length
  { pclass := k.1, sex := k.2.1, ageGroup := k.2.2, nPassengers := n, nSurvivors := s,
    survivalRate := if n = 0 then 0 else round3 ((s : ℚ) / (n : ℚ)) }

/-- Model of `survival_demographics` (lines 8-68) as a function of the loaded
record set: one row per key of the completed index, in sorted order. -/
def survival_demographics (records : List Passenger) : List DemoRow :=
  (demoKeys records).map (demoRow records)

/-- Derived attribute `family_size = SibSp + Parch + 1` (line 138). -/
def familySize (r : Passenger) : Nat := r.sibsp + r.parch + 1

/-- Grouping key of `groupby([family_size, Pclass])` (line 141); always
defined. -/
def Passenger.famKey (r : Passenger) : Nat × Nat := (familySize r, r.pclass)

/-- Row order of `family_groups` (line 156): by class, then family size
ascending. -/
def famLe (a b : Nat × Nat) : Prop := a.2 < b.2 ∨ (a.2 = b.2 ∧ a.1 ≤ b.1)

instance : DecidableRel famLe :=
  fun a b => inferInstanceAs (Decidable (a.2 < b.2 ∨ (a.2 = b.2 ∧ a.1 ≤ b.1)))

/-- Keys of the groups of `family_groups`: the observed `(family_size, class)`
combinations, one each, sorted by class then family size. -/
def observedFamKeys (records : List Passenger) : List (Nat × Nat) :=
  ((records.map Passenger.famKey).dedup).insertionSort famLe

/-- Minimum of a list of fares (`Fare: min` aggregate); value on the empty
list is irrelevant, since groups are nonempty. -/
def listMin : List ℚ → ℚ
  | [] => 0
  | x :: xs => xs.foldl min x

/-- Maximum of a list of fares (`Fare: max` aggregate). -/
def listMax : List ℚ → ℚ
  | [] => 0
  | x :: xs => xs.foldl max x

/-- One output row of `family_groups`. -/
structure FamRow where
  familySize : Nat
  pclass : Nat
  nPassengers : Nat
  avgFare : ℚ
  minFare : ℚ
  maxFare : ℚ
deriving DecidableEq, Repr

/-- One aggregated group of `family_groups` (lines 144-150): count of the
matching records and their mean, min and max fare rounded to 2 decimals. -/
def famRow (records : List Passenger) (k : Nat × Nat) : FamRow :=
  let grp := records.filter (fun r => decide (r.famKey = k))
  let fares := grp.map (fun r => r.fare)
  { familySize := k.1, pclass := k.2, nPassengers := grp.length,
    avgFare := round2 (fares.sum / (grp.length : ℚ)),
    minFare := round2 (listMin fares), maxFare := round2 (listMax fares) }

/-- Model of `family_groups` (lines 124-161) as a function of the loaded
record set. -/
def family_groups (records : List Passenger) : List FamRow :=
  (observedFamKeys records).map (famRow records)

/-- Python `str.strip`: drop leading and trailing whitespace characters. -/
def trimChars (l : List Char) : List Char :=
  ((l.dropWhile Char.isWhitespace).reverse.dropWhile Char.isWhitespace).reverse

/-- Model of `name.split(chr(44))[0].strip()` (line 178): the text before the
first comma of the name (the whole name when it has no comma), trimmed. -/
def surname (r : Passenger) : String :=
  String.mk (trimChars (r.name.data.takeWhile (fun c => c != ',')))

/-- Descending order on counts, the order of `value_counts()`. -/
def countGe (a b : String × Nat) : Prop := b.2 ≤ a.2

instance : DecidableRel countGe := fun a b => inferInstanceAs (Decidable (b.2 ≤ a.2))

/-- Model of `last_names` (lines 164-183): one `(surname, count)` pair per
distinct surname, sorted by descending count. -/
def last_names (records : List Passenger) : List (String × Nat) :=
  (((records.map surname).dedup).map
    (fun s => (s, (records.map surname).count s))).insertionSort countGe

/-- Defined (non-missing) ages of the passengers of class `c`. -/
def definedAges (records : List Passenger) (c : Nat) : List ℚ :=
  (records.filter (fun r => decide (r.pclass = c))).filterMap (fun r => r.age)

/-- Median as pandas computes it: middle element of the sorted values for odd
length, mean of the two middle elements for even length, missing when there
are no values. -/
def median? (l : List ℚ) : Option ℚ :=
  if (l.insertionSort (· ≤ ·)).length = 0 then none
  else if (l.insertionSort (· ≤ ·)).length % 2 = 1 then
    some ((l.insertionSort (· ≤ ·)).getD ((l.insertionSort (· ≤ ·)).length / 2) 0)
  else
    some (((l.insertionSort (· ≤ ·)).getD ((l.insertionSort (· ≤ ·)).length / 2 - 1) 0
      + (l.insertionSort (· ≤ ·)).getD ((l.insertionSort (· ≤ ·)).length / 2) 0) / 2)

/-- Model of `df.groupby(Pclass)[Age].median()` (line 257) looked up at class
`c`; missing when the class has no record with a defined age. -/
def classMedianAge (records : List Passenger) (c : Nat) : Option ℚ :=
  median? (definedAges records c)

/-- Value of the `older_passenger` cell (lines 261-264): pandas evaluates
`Age > class_median_age` with any comparison against `NaN` giving `False`,
and the `fillna(False)` of line 264 keeps that value. -/
def olderFlag (records : List Passenger) (r : Passenger) : Bool :=
  match r.age, classMedianAge records r.pclass with
  | some a, some m => decide (m < a)
  | _, _ => false

/-- Model of `determine_age_division` (lines 243-269): every record, in input
order, paired with its `older_passenger` flag. -/
def determine_age_division (records : List Passenger) : List (Passenger × Bool) :=
  records.map (fun r => (r, olderFlag records r))

/-- Column names of the loaded CSV, in order (spec section 6). -/
def titanicColumns : List String :=
  ["PassengerId", "Survived", "Pclass", "Name", "Sex", "Age",
   "SibSp", "Parch", "Ticket", "Fare", "Cabin", "Embarked"]

/-- Column effect of a pandas assignment `df[c] = ...`: a new column is
appended at the end, an existing one is overwritten in place. -/
def addColumn (cols : List String) (c : String) : List String :=
  if c ∈ cols then cols else cols ++ [c]

/-- Column effect of `df.drop(c, axis=1)` (line 267). -/
def dropColumn (cols : List String) (c : String) : List String := cols.erase c

/-- Column-level effect of `determine_age_division` (lines 260-267): add
`class_median_age`, add `older_passenger`, drop `class_median_age`. -/
def ageDivisionColumns (cols : List String) : List String :=
  dropColumn (addColumn (addColumn cols "class_median_age") "older_passenger")
    "class_median_age"

/-- Helper building a concrete record with the remaining CSV fields fixed. -/
def mkPassenger (pid : Nat) (surv : Bool) (c : Nat) (nm sx : String)
    (ag : Option ℚ) : Passenger :=
  { passengerId := pid, survived := surv, pclass := c, name := nm, sex := sx,
    age := ag, sibsp := 0, parch := 0, ticket := "330911", fare := 7,
    cabin := none, embarked := some "Q" }

/-- A concrete first-class adult man. -/
def examplePassenger : Passenger :=
  mkPassenger 1 true 1 "Braund, Mr. Owen Harris" "male" (some 30)

/-- A concrete single-passenger dataset: one first-class adult man. -/
def exampleOne : List Passenger := [examplePassenger]

/-- A concrete dataset whose only passenger has no comma in the name. -/
def exampleNoComma : List Passenger :=
  [mkPassenger 1 true 2 "Solo" "male" none]

/-- A concrete dataset whose only passenger has the defined age 0, which lies
in none of the four age bins. -/
def exampleAgeZero : List Passenger :=
  [mkPassenger 1 true 3 "Dean, Miss. Infant" "female" (some 0)]

/-! ### Counting helper lemmas -/

lemma length_filter_cons {α : Type} (p : α → Bool) (a : α) (l : List α) :
    (List.filter p (a :: l)).length
      = (if p a then 1 else 0) + (List.filter p l).length := by
  by_cases h : p a
  · simp [List.filter_cons, h, Nat.add_comm]
  · simp [List.filter_cons, h]

lemma sum_map_ite_one {κ : Type} [DecidableEq κ] (o : Option κ) :
    ∀ keys : List κ, keys.Nodup →
      (keys.map (fun k => if o = some k then (1 : Nat) else 0)).sum
        = if ∃ k ∈ keys, o = some k then 1 else 0
  | [], _ => by simp
  | k :: ks, hnd => by
    rcases List.nodup_cons.mp hnd with ⟨hk, hnd2⟩
    have ih := sum_map_ite_one o ks hnd2
    simp only [List.map_cons, List.sum_cons, ih]
    by_cases ho : o = some k
    · have hrest : ¬ ∃ x ∈ ks, o = some x := by
        rintro ⟨x, hx, hox⟩
        rw [ho] at hox
        injection hox with h2
        exact hk (h2 ▸ hx)
      have hex : ∃ x ∈ k :: ks, o = some x := ⟨k, List.mem_cons_self k ks, ho⟩
      rw [if_pos ho, if_neg hrest, if_pos hex]
    · have hiff : (∃ x ∈ k :: ks, o = some x) ↔ ∃ x ∈ ks, o = some x := by
        constructor
        · rintro ⟨x, hx, hox⟩
          rcases List.mem_cons.mp hx with rfl | hx2
          · exact absurd hox ho
          · exact ⟨x, hx2, hox⟩
        · rintro ⟨x, hx, hox⟩
          exact ⟨x, List.mem_cons_of_mem _ hx, hox⟩
      rw [if_neg ho]
      by_cases hrest : ∃ x ∈ ks, o = some x
      · rw [if_pos hrest, if_pos (hiff.mpr hrest)]
      · rw [if_neg hrest, if_neg (fun hcon => hrest (hiff.mp hcon))]

/-- Grouping partitions counting: for a duplicate-free key list, the group
sizes add up to the number of records whose key lies in the list. -/
lemma sum_group_sizes {α κ : Type} [DecidableEq κ] (key : α → Option κ)
    (keys : List κ) (hnd : keys.Nodup) :
    ∀ records : List α,
      (keys.map (fun k =>
          (records.filter (fun r => decide (key r = some k))).length)).sum
        = (records.filter (fun r => decide (∃ k ∈ keys, key r = some k))).length
  | [] => by simp
  | r :: rest => by
    have ih := sum_group_sizes key keys hnd rest
    have hstep : ∀ k ∈ keys,
        ((r :: rest).filter (fun x => decide (key x = some k))).length
          = (if key r = some k then (1 : Nat) else 0)
            + (rest.filter (fun x => decide (key x = some k))).length := by
      intro k _
      rw [length_filter_cons]
      by_cases h : key r = some k <;> simp [h]
    rw [List.map_congr_left hstep, List.sum_map_add, sum_map_ite_one (key r) keys hnd,
      ih, length_filter_cons]
    by_cases h : ∃ k ∈ keys, key r = some k <;> simp [h]

/-! ### Facts about the grouping key lists -/

lemma nodup_observedClasses (records : List Passenger) :
    (observedClasses records).Nodup :=
  (List.perm_insertionSort _ _).symm.nodup
    (List.nodup_dedup (records.map (fun r => r.pclass)))

lemma nodup_observedSexes (records : List Passenger) :
    (observedSexes records).Nodup :=
  (List.perm_insertionSort _ _).symm.nodup
    (List.nodup_dedup (records.map (fun r => r.sex)))

lemma mem_observedClasses {records : List Passenger} {r : Passenger}
    (hr : r ∈ records) : r.pclass ∈ observedClasses records := by
  unfold observedClasses
  rw [List.mem_insertionSort, List.mem_dedup]
  exact List.mem_map.mpr ⟨r, hr, rfl⟩

lemma mem_observedSexes {records : List Passenger} {r : Passenger}
    (hr : r ∈ records) : r.sex ∈ observedSexes records := by
  unfold observedSexes
  rw [List.mem_insertionSort, List.mem_dedup]
  exact List.mem_map.mpr ⟨r, hr, rfl⟩

lemma mem_allAgeGroups (g : AgeGroup) : g ∈ allAgeGroups := by
  cases g <;> simp [allAgeGroups]

lemma nodup_demoKeys (records : List Passenger) : (demoKeys records).Nodup :=
  (nodup_observedClasses records).product
    ((nodup_observedSexes records).product (by decide))

lemma mem_demoKeys {records : List Passenger} {k : Nat × String × AgeGroup} :
    k ∈ demoKeys records
      ↔ k.1 ∈ observedClasses records ∧ k.2.1 ∈ observedSexes records := by
  rcases k with ⟨c, s, g⟩
  simp [demoKeys, List.mem_product, mem_allAgeGroups]

lemma demoKey_mem_demoKeys {records : List Passenger} {r : Passenger}
    {k : Nat × String × AgeGroup} (hr : r ∈ records) (hk : r.demoKey = some k) :
    k ∈ demoKeys records := by
  rcases k with ⟨c, s, g⟩
  unfold Passenger.demoKey at hk
  cases hag : r.ageGroup with
  | none =>
    rw [hag] at hk
    exact Option.noConfusion hk
  | some g2 =>
    rw [hag] at hk
    injection hk with hk2
    injection hk2 with hc hrest
    injection hrest with hs hg
    subst hc
    subst hs
    exact mem_demoKeys.mpr ⟨mem_observedClasses hr, mem_observedSexes hr⟩

lemma nodup_observedFamKeys (records : List Passenger) :
    (observedFamKeys records).Nodup :=
  (List.perm_insertionSort _ _).symm.nodup
    (List.nodup_dedup (records.map Passenger.famKey))

lemma mem_observedFamKeys {records : List Passenger} {k : Nat × Nat} :
    k ∈ observedFamKeys records ↔ ∃ r ∈ records, r.famKey = k := by
  unfold observedFamKeys
  rw [List.mem_insertionSort, List.mem_dedup, List.mem_map]

instance : IsTrans (Nat × Nat) famLe :=
  ⟨by
    intro a b c hab hbc
    simp only [famLe] at hab hbc ⊢
    omega⟩

instance : IsTotal (Nat × Nat) famLe :=
  ⟨by
    intro a b
    simp only [famLe]
    omega⟩

instance : IsTrans (String × Nat) countGe :=
  ⟨fun _ _ _ hab hbc => Nat.le_trans hbc hab⟩

instance : IsTotal (String × Nat) countGe :=
  ⟨fun a b => (Nat.le_total b.2 a.2).imp id id⟩

/-! ### Facts about medians of defined ages -/

lemma median?_isSome {l : List ℚ} (h : l ≠ []) : ∃ m, median? l = some m := by
  unfold median?
  have hlen : (l.insertionSort (· ≤ ·)).length = l.length :=
    List.length_insertionSort _ _
  have h0 : ¬ (l.insertionSort (· ≤ ·)).length = 0 := by
    rw [hlen]
    exact fun hc => h (List.length_eq_zero.mp hc)
  rw [if_neg h0]
  by_cases hpar : (l.insertionSort (· ≤ ·)).length % 2 = 1
  · rw [if_pos hpar]
    exact ⟨_, rfl⟩
  · rw [if_neg hpar]
    exact ⟨_, rfl⟩

lemma mem_definedAges {records : List Passenger} {r : Passenger} {a : ℚ}
    (hr : r ∈ records) (ha : r.age = some a) :
    a ∈ definedAges records r.pclass := by
  unfold definedAges
  exact List.mem_filterMap.mpr ⟨r, List.mem_filter.mpr ⟨hr, by simp⟩, ha⟩

lemma classMedianAge_isSome {records : List Passenger} {r : Passenger} {a : ℚ}
    (hr : r ∈ records) (ha : r.age = some a) :
    ∃ m, classMedianAge records r.pclass = some m :=
  median?_isSome (List.ne_nil_of_mem (mem_definedAges hr ha))

/-! ### Projections of the aggregated rows -/

lemma demoRow_pclass (records : List Passenger) (k : Nat × String × AgeGroup) :
    (demoRow records k).pclass = k.1 := rfl

lemma demoRow_sex (records : List Passenger) (k : Nat × String × AgeGroup) :
    (demoRow records k).sex = k.2.1 := rfl

lemma demoRow_ageGroup (records : List Passenger) (k : Nat × String × AgeGroup) :
    (demoRow records k).ageGroup = k.2.2 := rfl

lemma demoRow_nPassengers (records : List Passenger) (k : Nat × String × AgeGroup) :
    (demoRow records k).nPassengers
      = (records.filter (fun r => decide (r.demoKey = some k))).length := rfl

lemma demoRow_nSurvivors (records : List Passenger) (k : Nat × String × AgeGroup) :
    (demoRow records k).nSurvivors
      = ((records.filter (fun r => decide (r.demoKey = some k))).filter
          (fun r => r.survived)).length := rfl

lemma demoRow_survivalRate (records : List Passenger) (k : Nat × String × AgeGroup) :
    (demoRow records k).survivalRate
      = if (records.filter (fun r => decide (r.demoKey = some k))).length = 0 then 0
        else round3
          ((((records.filter (fun r => decide (r.demoKey = some k))).filter
              (fun r => r.survived)).length : ℚ)
            / ((records.filter (fun r => decide (r.demoKey = some k))).length : ℚ)) := rfl

lemma map_fst_pairs {α β : Type} (f : α → β) (l : List α) :
    ((l.map (fun s => (s, f s))).map (fun p => p.1)) = l := by
  induction l with
  | nil => rfl
  | cons a t ih => simp [ih]

lemma map_snd_pairs {α β : Type} (f : α → β) (l : List α) :
    ((l.map (fun s => (s, f s))).map (fun p => p.2)) = l.map f := by
  induction l with
  | nil => rfl
  | cons a t ih => simp [ih]

/-! ### Claims -/

/-- C5, counterexample: the defined age 0 lies in none of the four bins, so
`pd.cut` assigns it no category and the assignment is not total on all
defined ages. -/
theorem ageGroup_zero_unassigned : ageGroup? 0 = none := by decide

/-- C5 (amended): on every strictly positive defined age the assignment is
total and places the age in exactly one category, the one of the unique bin
among `(0,12], (12,19], (19,59], (59,inf)` containing it; defined ages at
most 0 are the only ones left unassigned. -/
theorem ageGroup_bins_partition (a : ℚ) (h : 0 < a) :
    (∃ g, ageGroup? a = some g)
    ∧ (ageGroup? a = some AgeGroup.child ↔ 0 < a ∧ a ≤ 12)
    ∧ (ageGroup? a = some AgeGroup.teen ↔ 12 < a ∧ a ≤ 19)
    ∧ (ageGroup? a = some AgeGroup.adult ↔ 19 < a ∧ a ≤ 59)
    ∧ (ageGroup? a = some AgeGroup.senior ↔ 59 < a) := by
  have h0 : ¬ a ≤ 0 := not_le.mpr h
  unfold ageGroup?
  rw [if_neg h0]
  by_cases h12 : a ≤ 12
  · rw [if_pos h12]
    refine ⟨⟨_, rfl⟩, iff_of_true rfl ⟨h, h12⟩, ?_, ?_, ?_⟩
    · exact iff_of_false (by simp) (fun hx => absurd hx.1 (by linarith))
    · exact iff_of_false (by simp) (fun hx => absurd hx.1 (by linarith))
    · exact iff_of_false (by simp) (fun hx => absurd hx (by linarith))
  · by_cases h19 : a ≤ 19
    · rw [if_neg h12, if_pos h19]
      refine ⟨⟨_, rfl⟩, ?_, iff_of_true rfl ⟨not_le.mp h12, h19⟩, ?_, ?_⟩
      · exact iff_of_false (by simp) (fun hx => absurd hx.2 h12)
      · exact iff_of_false (by simp) (fun hx => absurd hx.1 (by linarith))
      · exact iff_of_false (by simp) (fun hx => absurd hx (by linarith))
    · by_cases h59 : a ≤ 59
      · rw [if_neg h12, if_neg h19, if_pos h59]
        refine ⟨⟨_, rfl⟩, ?_, ?_, iff_of_true rfl ⟨not_le.mp h19, h59⟩, ?_⟩
        · exact iff_of_false (by simp) (fun hx => absurd hx.2 (by linarith))
        · exact iff_of_false (by simp) (fun hx => absurd hx.2 h19)
        · exact iff_of_false (by simp) (fun hx => absurd hx (by linarith))
      · rw [if_neg h12, if_neg h19, if_neg h59]
        refine ⟨⟨_, rfl⟩, ?_, ?_, ?_, iff_of_true rfl (not_le.mp h59)⟩
        · exact iff_of_false (by simp) (fun hx => absurd hx.2 (by linarith))
        · exact iff_of_false (by simp) (fun hx => absurd hx.2 (by linarith))
        · exact iff_of_false (by simp) (fun hx => absurd hx.2 h59)

/-- C5 witness: the age 30 is positive and lands in the Adult bin. -/
theorem ageGroup_bins_partition_witness :
    (0 : ℚ) < 30 ∧ ageGroup? 30 = some AgeGroup.adult :=
  ⟨by decide,
    ((ageGroup_bins_partition 30 (by decide)).2.2.2.1).mpr ⟨by decide, by decide⟩⟩

/-- C1, counterexample: on a dataset holding a single first-class man the
output of `survival_demographics` has 4 rows, not 24, because the completed
index is built from the observed classes and sexes, not from the full sets
`{1,2,3}` and `{male,female}`. -/
theorem survival_demographics_not_always_24 :
    (survival_demographics exampleOne).length = 4
    ∧ (survival_demographics exampleOne).length ≠ 24 := by decide

/-- C1 (amended): for every input record set the output has exactly one row
for every combination in (observed distinct classes) x (observed distinct
sexes) x {Child, Teen, Adult, Senior} - that is `4 * c * s` rows where `c`
and `s` count the distinct observed classes and sexes (24 exactly when all
three classes and both sexes occur) - including combinations with zero
matching records, and every zero-passenger row has `n_survivors = 0` and
`survival_rate = 0` (present, not dropped, not undefined). -/
theorem survival_demographics_observed_cross_product (records : List Passenger) :
    (survival_demographics records).length
        = (observedClasses records).length * ((observedSexes records).length * 4)
    ∧ (∀ c ∈ observedClasses records, ∀ s ∈ observedSexes records, ∀ g : AgeGroup,
        ((survival_demographics records).filter
          (fun row => decide (row.pclass = c ∧ row.sex = s ∧ row.ageGroup = g))).length
          = 1)
    ∧ (∀ row ∈ survival_demographics records,
        row.nPassengers = 0 → row.nSurvivors = 0 ∧ row.survivalRate = 0) := by
  refine ⟨?_, ?_, ?_⟩
  · unfold survival_demographics demoKeys
    rw [List.length_map, List.length_product, List.length_product]
    rfl
  · intro c hc s hs g
    unfold survival_demographics
    rw [List.filter_map, List.length_map]
    have hpred : ∀ k ∈ demoKeys records,
        ((fun row => decide (row.pclass = c ∧ row.sex = s ∧ row.ageGroup = g))
            ∘ demoRow records) k
          = decide (k = (c, s, g)) := by
      intro k _
      rcases k with ⟨c2, s2, g2⟩
      simp only [Function.comp_apply, demoRow_pclass, demoRow_sex, demoRow_ageGroup]
      apply decide_eq_decide.mpr
      constructor
      · rintro ⟨rfl, rfl, rfl⟩
        rfl
      · intro hx
        injection hx with h1 h2
        injection h2 with h3 h4
        exact ⟨h1, h3, h4⟩
    rw [List.filter_congr hpred, ← List.countP_eq_length_filter]
    exact List.count_eq_one_of_mem (nodup_demoKeys records) (mem_demoKeys.mpr ⟨hc, hs⟩)
  · intro row hrow h0
    unfold survival_demographics at hrow
    rcases List.mem_map.mp hrow with ⟨k, hkmem, rfl⟩
    rw [demoRow_nPassengers] at h0
    constructor
    · rw [demoRow_nSurvivors, List.length_eq_zero.mp h0]
      rfl
    · rw [demoRow_survivalRate, if_pos h0]

/-- C1 witness: in the single-record dataset, class 1 and sex male are
observed, so a unique (1, male, Senior) row exists even though no senior is
aboard. -/
theorem survival_demographics_observed_cross_product_witness :
    ((survival_demographics exampleOne).filter
      (fun row => decide (row.pclass = 1 ∧ row.sex = "male"
        ∧ row.ageGroup = AgeGroup.senior))).length = 1 :=
  (survival_demographics_observed_cross_product exampleOne).2.1
    1 (by decide) "male" (by decide) AgeGroup.senior

/-- C3: in every output row of `survival_demographics`, the survivor count is
at most the passenger count, and every row with at least one passenger has
`survival_rate = round3(n_survivors / n_passengers)`. -/
theorem survival_demographics_rate_bound (records : List Passenger) :
    ∀ row ∈ survival_demographics records,
      row.nSurvivors ≤ row.nPassengers
      ∧ (0 < row.nPassengers →
          row.survivalRate
            = round3 ((row.nSurvivors : ℚ) / (row.nPassengers : ℚ))) := by
  intro row hrow
  unfold survival_demographics at hrow
  rcases List.mem_map.mp hrow with ⟨k, hkmem, rfl⟩
  constructor
  · rw [demoRow_nSurvivors, demoRow_nPassengers]
    exact List.length_filter_le _ _
  · intro hpos
    rw [demoRow_nPassengers] at hpos
    rw [demoRow_survivalRate, if_neg (Nat.pos_iff_ne_zero.mp hpos)]
    rfl

/-- C3 witness: applied to the (1, male, Adult) row of the single-record
dataset, whose one passenger survived. -/
theorem survival_demographics_rate_bound_witness :
    (demoRow exampleOne (1, "male", AgeGroup.adult)).nSurvivors
        ≤ (demoRow exampleOne (1, "male", AgeGroup.adult)).nPassengers
    ∧ (demoRow exampleOne (1, "male", AgeGroup.adult)).survivalRate
        = round3 (((demoRow exampleOne (1, "male", AgeGroup.adult)).nSurvivors : ℚ)
            / ((demoRow exampleOne (1, "male", AgeGroup.adult)).nPassengers : ℚ)) := by
  have h := survival_demographics_rate_bound exampleOne
    (demoRow exampleOne (1, "male", AgeGroup.adult))
    (List.mem_map.mpr ⟨(1, "male", AgeGroup.adult), by decide, rfl⟩)
  exact ⟨h.1, h.2 (by decide)⟩

/-- C4, counterexample: a dataset whose only record has the defined age 0;
the record populates no group, so the group sizes sum to 0 while one record
has a defined age. -/
theorem survival_demographics_age_zero_dropped :
    ((survival_demographics exampleAgeZero).map (fun row => row.nPassengers)).sum = 0
    ∧ (exampleAgeZero.filter (fun r => (r.age).isSome)).length = 1
    ∧ ((survival_demographics exampleAgeZero).map (fun row => row.nPassengers)).sum
        ≠ (exampleAgeZero.filter (fun r => (r.age).isSome)).length := by decide

/-- C4 (amended): a record with absent age has no age group, hence is counted
in no row; the sum of `n_passengers` over all output rows equals the number
of records whose age is defined AND falls in one of the four bins (a defined
age of at most 0 also falls outside every bin and is likewise dropped). -/
theorem survival_demographics_group_sum (records : List Passenger) :
    (∀ r : Passenger, r.age = none → r.ageGroup = none)
    ∧ ((survival_demographics records).map (fun row => row.nPassengers)).sum
        = (records.filter (fun r => (r.ageGroup).isSome)).length := by
  constructor
  · intro r hr
    unfold Passenger.ageGroup
    rw [hr]
    rfl
  · unfold survival_demographics
    rw [List.map_map]
    have hcomp : ((fun row => row.nPassengers) ∘ demoRow records)
        = fun k => (records.filter (fun r => decide (r.demoKey = some k))).length := rfl
    rw [hcomp,
      sum_group_sizes Passenger.demoKey (demoKeys records) (nodup_demoKeys records) records]
    congr 1
    apply List.filter_congr
    intro r hr
    cases hag : r.demoKey with
    | none =>
      have hnone : r.ageGroup = none := by
        unfold Passenger.demoKey at hag
        cases hag2 : r.ageGroup with
        | none => rfl
        | some g =>
          rw [hag2] at hag
          exact Option.noConfusion hag
      simp [hag, hnone]
    | some k =>
      have hsome : (r.ageGroup).isSome = true := by
        unfold Passenger.demoKey at hag
        cases hag2 : r.ageGroup with
        | none =>
          rw [hag2] at hag
          exact Option.noConfusion hag
        | some g => rfl
      simp [hag, hsome]
      exact demoKey_mem_demoKeys hr hag

/-- C4 witness: a record with absent age gets no age group. -/
theorem survival_demographics_group_sum_witness :
    (mkPassenger 1 true 2 "Solo" "male" none).ageGroup = none :=
  (survival_demographics_group_sum exampleNoComma).1
    (mkPassenger 1 true 2 "Solo" "male" none) rfl

/-- C2: `determine_age_division` keeps every record unchanged and in order,
its added boolean is false whenever the age is absent, and for a defined age
it equals the comparison against the median of the defined ages of the
records sharing the class (which exists in that case). -/
theorem determine_age_division_older_flag (records : List Passenger) :
    (determine_age_division records).map Prod.fst = records
    ∧ (∀ p ∈ determine_age_division records, p.1.age = none → p.2 = false)
    ∧ (∀ p ∈ determine_age_division records, ∀ a : ℚ, p.1.age = some a →
        ∃ m, classMedianAge records p.1.pclass = some m
          ∧ (p.2 = true ↔ m < a)) := by
  refine ⟨?_, ?_, ?_⟩
  · unfold determine_age_division
    rw [List.map_map]
    have hcomp : (Prod.fst ∘ fun r : Passenger => (r, olderFlag records r)) = id := rfl
    rw [hcomp]
    exact List.map_id records
  · intro p hp hage
    unfold determine_age_division at hp
    rcases List.mem_map.mp hp with ⟨r, hr, rfl⟩
    have hage2 : r.age = none := hage
    show olderFlag records r = false
    unfold olderFlag
    rw [hage2]
  · intro p hp a hage
    unfold determine_age_division at hp
    rcases List.mem_map.mp hp with ⟨r, hr, rfl⟩
    have hage2 : r.age = some a := hage
    obtain ⟨m, hm⟩ := classMedianAge_isSome hr hage2
    refine ⟨m, hm, ?_⟩
    show olderFlag records r = true ↔ m < a
    unfold olderFlag
    rw [hage2, hm]
    simp

/-- C2 witness: the single passenger of the one-record dataset has age 30,
the class median is defined, and the flag matches the comparison. -/
theorem determine_age_division_older_flag_witness :
    ∃ m, classMedianAge exampleOne examplePassenger.pclass = some m
      ∧ (olderFlag exampleOne examplePassenger = true ↔ m < 30) :=
  (determine_age_division_older_flag exampleOne).2.2
    (examplePassenger, olderFlag exampleOne examplePassenger)
    (List.mem_map.mpr ⟨examplePassenger, by decide, rfl⟩) 30 rfl

/-- C9: `determine_age_division` changes no existing cell and drops no row
(the record component of every output pair is the input record, in order);
at column level it appends exactly `older_passenger` to the CSV schema, and
the intermediate `class_median_age` column is absent from the output. -/
theorem determine_age_division_frame (records : List Passenger) :
    (determine_age_division records).map Prod.fst = records
    ∧ ageDivisionColumns titanicColumns = titanicColumns ++ ["older_passenger"]
    ∧ "class_median_age" ∉ ageDivisionColumns titanicColumns := by
  refine ⟨?_, by decide, by decide⟩
  unfold determine_age_division
  rw [List.map_map]
  have hcomp : (Prod.fst ∘ fun r : Passenger => (r, olderFlag records r)) = id := rfl
  rw [hcomp]
  exact List.map_id records

/-- C9 witness: on the one-record dataset the record components of the
output are the input records. -/
theorem determine_age_division_frame_witness :
    (determine_age_division exampleOne).map Prod.fst = exampleOne :=
  (determine_age_division_frame exampleOne).1

/-- C6: `family_size` is `SibSp + Parch + 1` for every record, and the group
sizes of `family_groups` sum to the total record count, every record being
grouped. -/
theorem family_groups_total (records : List Passenger) :
    (∀ r : Passenger, familySize r = r.sibsp + r.parch + 1)
    ∧ ((family_groups records).map (fun row => row.nPassengers)).sum
        = records.length := by
  refine ⟨fun r => rfl, ?_⟩
  unfold family_groups
  rw [List.map_map]
  have hcomp : ((fun row => row.nPassengers) ∘ famRow records)
      = fun k => (records.filter
          (fun r => decide ((fun x : Passenger => some x.famKey) r = some k))).length := by
    funext k
    show (records.filter (fun r => decide (r.famKey = k))).length = _
    congr 1
    apply List.filter_congr
    intro r _
    exact decide_eq_decide.mpr Option.some_inj.symm
  rw [hcomp,
    sum_group_sizes (fun x : Passenger => some x.famKey) (observedFamKeys records)
      (nodup_observedFamKeys records) records]
  have htrue : ∀ r ∈ records,
      (decide (∃ k ∈ observedFamKeys records,
          (fun x : Passenger => some x.famKey) r = some k))
        = (fun _ : Passenger => true) r := by
    intro r hr
    simp only [decide_eq_true_eq]
    exact ⟨r.famKey, mem_observedFamKeys.mpr ⟨r, hr, rfl⟩, rfl⟩
  rw [List.filter_congr htrue, List.filter_true]

/-- C6 witness: on the one-record dataset the group sizes sum to the record
count. -/
theorem family_groups_total_witness :
    ((family_groups exampleOne).map (fun row => row.nPassengers)).sum
      = exampleOne.length :=
  (family_groups_total exampleOne).2

/-- C7: the rows of `family_groups` carry exactly the observed
`(family_size, class)` combinations, once each, ordered by class and then by
family size ascending. -/
theorem family_groups_rows (records : List Passenger) :
    ((family_groups records).map (fun row => (row.familySize, row.pclass))).Nodup
    ∧ (∀ k : Nat × Nat,
        k ∈ (family_groups records).map (fun row => (row.familySize, row.pclass))
          ↔ ∃ r ∈ records, (familySize r, r.pclass) = k)
    ∧ ((family_groups records).map
        (fun row => (row.familySize, row.pclass))).Pairwise
          (fun a b => a.2 < b.2 ∨ (a.2 = b.2 ∧ a.1 ≤ b.1)) := by
  have hmap : (family_groups records).map (fun row => (row.familySize, row.pclass))
      = observedFamKeys records := by
    unfold family_groups
    rw [List.map_map]
    have hcomp : ((fun row => (row.familySize, row.pclass)) ∘ famRow records)
        = id := by
      funext k
      rcases k with ⟨fs, c⟩
      rfl
    rw [hcomp]
    exact List.map_id _
  rw [hmap]
  refine ⟨nodup_observedFamKeys records, ?_, ?_⟩
  · intro k
    rw [mem_observedFamKeys]
    exact Iff.rfl
  · exact List.sorted_insertionSort famLe ((records.map Passenger.famKey).dedup)

/-- C7 witness: the observed combination (1, 1) is carried by a row of the
one-record dataset. -/
theorem family_groups_rows_witness :
    (1, 1) ∈ (family_groups exampleOne).map
      (fun row => (row.familySize, row.pclass)) :=
  ((family_groups_rows exampleOne).2.1 (1, 1)).mpr ⟨examplePassenger, by decide, rfl⟩

/-- C8: `last_names` has pairwise distinct surnames, each coming from some
record (text before the first comma, trimmed), counts summing to the record
total, and rows in descending count order. -/
theorem last_names_counts (records : List Passenger) :
    ((last_names records).map (fun p => p.2)).sum = records.length
    ∧ ((last_names records).map (fun p => p.1)).Nodup
    ∧ (∀ p ∈ last_names records, ∃ r ∈ records, surname r = p.1)
    ∧ ((last_names records).map (fun p => p.2)).Pairwise
        (fun m n : Nat => n ≤ m) := by
  have hperm : (last_names records).Perm
      (((records.map surname).dedup).map
        (fun s => (s, (records.map surname).count s))) :=
    List.perm_insertionSort _ _
  refine ⟨?_, ?_, ?_, ?_⟩
  · rw [(hperm.map (fun p : String × Nat => p.2)).sum_eq,
      map_snd_pairs (fun s => (records.map surname).count s) ((records.map surname).dedup),
      List.sum_map_count_dedup_eq_length (records.map surname), List.length_map]
  · refine (hperm.map (fun p : String × Nat => p.1)).symm.nodup ?_
    rw [map_fst_pairs]
    exact List.nodup_dedup _
  · intro p hp
    unfold last_names at hp
    rcases List.mem_map.mp ((List.mem_insertionSort _).mp hp) with ⟨s, hs, rfl⟩
    rcases List.mem_map.mp (List.mem_dedup.mp hs) with ⟨r, hr, rfl⟩
    exact ⟨r, hr, rfl⟩
  · have hs := List.sorted_insertionSort countGe
      (((records.map surname).dedup).map
        (fun s => (s, (records.map surname).count s)))
    exact hs.map (fun p : String × Nat => p.2) (fun a b h => h)

/-- C8 witness: the surname Braund of the one-record dataset comes from its
record. -/
theorem last_names_counts_witness :
    ∃ r ∈ exampleOne, surname r = "Braund" :=
  (last_names_counts exampleOne).2.2.1 ("Braund", 1) (by decide)

/-- C10: a record whose name holds no comma still gets a surname, namely the
whole name trimmed, and it is counted in the output of `last_names`. -/
theorem last_names_no_comma (records : List Passenger) :
    ∀ r ∈ records, ',' ∉ r.name.data →
      surname r = String.mk (trimChars r.name.data)
      ∧ ∃ p ∈ last_names records, p.1 = surname r ∧ 0 < p.2 := by
  intro r hr hnc
  have htw : r.name.data.takeWhile (fun c => c != ',') = r.name.data := by
    apply List.takeWhile_eq_self_iff.mpr
    intro x hx
    simp only [bne_iff_ne, ne_eq]
    intro hcon
    exact hnc (hcon ▸ hx)
  constructor
  · unfold surname
    rw [htw]
  · have hmem : surname r ∈ records.map surname := List.mem_map.mpr ⟨r, hr, rfl⟩
    refine ⟨(surname r, (records.map surname).count (surname r)), ?_, rfl, ?_⟩
    · unfold last_names
      rw [List.mem_insertionSort]
      exact List.mem_map.mpr ⟨surname r, List.mem_dedup.mpr hmem, rfl⟩
    · exact List.count_pos_iff.mpr hmem

/-- C10 witness: the comma-free name Solo is counted whole (trimmed) in its
dataset. -/
theorem last_names_no_comma_witness :
    surname (mkPassenger 1 true 2 "Solo" "male" none)
        = String.mk (trimChars ("Solo".data))
    ∧ ∃ p ∈ last_names exampleNoComma,
        p.1 = surname (mkPassenger 1 true 2 "Solo" "male" none) ∧ 0 < p.2 :=
  last_names_no_comma exampleNoComma
    (mkPassenger 1 true 2 "Solo" "male" none) (by decide) (by decide)

end Titanic
